import Mathlib

/-!
Verification of the skills-server core (server.py): shallow embedding of the
indexing, validation, change-detection, search-ranking and usage-tracking
subsystems, with theorems settling the frozen claims about them.

Conventions of the embedding:
* Python strings are `List Char` (`Str`); Python float scores are `ℚ`,
  written with `mkRat`/`Rat.add`/`Rat.mul` so that closed computations reduce
  in the kernel.  Lower-casing models Python `str.lower` on the ASCII range.
* Filesystem state is passed explicitly (a directory snapshot), and the
  module-level mutable `_USAGE_STATS` is threaded as an explicit
  `UsageStats` value; `datetime.now()` is an explicit `now` argument.
* Python exceptions that the code does not catch are modelled with
  `Except PyErr`; operations the code cannot abort return plain values.
-/

set_option maxRecDepth 16000

namespace SkillsServer

abbrev Str := List Char

def chars (s : String) : Str := s.data

/-- Models Python `str.lower` character-wise on the ASCII letters (the only
case mapping exercised by the repository's data). -/
def pyLowerChar : Char → Char
  | 'A' => 'a' | 'B' => 'b' | 'C' => 'c' | 'D' => 'd' | 'E' => 'e' | 'F' => 'f'
  | 'G' => 'g' | 'H' => 'h' | 'I' => 'i' | 'J' => 'j' | 'K' => 'k' | 'L' => 'l'
  | 'M' => 'm' | 'N' => 'n' | 'O' => 'o' | 'P' => 'p' | 'Q' => 'q' | 'R' => 'r'
  | 'S' => 's' | 'T' => 't' | 'U' => 'u' | 'V' => 'v' | 'W' => 'w' | 'X' => 'x'
  | 'Y' => 'y' | 'Z' => 'z'
  | c => c

def pyLower (s : Str) : Str := s.map pyLowerChar

/-- Python `str.isspace` members relevant to `str.strip()` / `str.split()`. -/
def pyIsSpace (c : Char) : Bool :=
  c == ' ' || c == '\t' || c == '\n' || c == '\r' || c == '\x0b' || c == '\x0c'

/-- Python `str.strip()` with no arguments. -/
def pyStrip (s : Str) : Str :=
  ((s.dropWhile pyIsSpace).reverse.dropWhile pyIsSpace).reverse

def isSubAux (needle : Str) : Str → Bool
  | [] => false
  | c :: cs => List.isPrefixOf needle (c :: cs) || isSubAux needle cs

/-- Python substring containment `needle in hay` (empty needle is contained). -/
def isSubstring (needle hay : Str) : Bool :=
  needle.isEmpty || isSubAux needle hay

def pyFindAux (needle : Str) : Str → Option ℕ
  | [] => if needle.isEmpty then some 0 else none
  | c :: cs =>
    if List.isPrefixOf needle (c :: cs) then some 0
    else (pyFindAux needle cs).map (fun n => n + 1)

/-- Python `hay.find(needle)`: index of the first occurrence, or -1. -/
def pyFind (hay needle : Str) : Int :=
  match pyFindAux needle hay with
  | some n => Int.ofNat n
  | none => -1

def pySplitAux : Str → Str → List Str
  | [], acc => if acc.isEmpty then [] else [acc.reverse]
  | c :: cs, acc =>
    if pyIsSpace c then
      if acc.isEmpty then pySplitAux cs [] else acc.reverse :: pySplitAux cs []
    else pySplitAux cs (c :: acc)

/-- Python `str.split()` with no arguments: split on whitespace runs. -/
def pySplit (s : Str) : List Str := pySplitAux s []

def pyCountAux (needle : Str) : Str → ℕ → ℕ
  | [], _ => 0
  | _ :: cs, k + 1 => pyCountAux needle cs k
  | c :: cs, 0 =>
    if List.isPrefixOf needle (c :: cs) then pyCountAux needle cs (needle.length - 1) + 1
    else pyCountAux needle cs 0

/-- Python `hay.count(needle)`: non-overlapping occurrence count. -/
def pyCount (hay needle : Str) : ℕ :=
  if needle.isEmpty then hay.length + 1 else pyCountAux needle hay 0

def takeLast {α : Type} (n : ℕ) (xs : List α) : List α := xs.drop (xs.length - n)

def splitSlashAux : Str → Str → List Str
  | [], acc => [acc.reverse]
  | c :: cs, acc =>
    if c == '/' then acc.reverse :: splitSlashAux cs [] else splitSlashAux cs (c :: acc)

def splitSlash (s : Str) : List Str := splitSlashAux s []

/-- Python `min` on two rationals (first argument wins ties). -/
def pyMin (a b : ℚ) : ℚ := if Rat.blt b a then b else a

/-- Models `round(score, 3)` from the source as exact rational rounding
half-away to three decimals.  On every score the phrase-match branch of the
content search produces (1.0 and 1.2) this agrees exactly with the Python
float computation. -/
def round3 (q : ℚ) : ℚ :=
  mkRat (Int.ediv (2 * (q.num * 1000) + Int.ofNat q.den) (2 * Int.ofNat q.den)) 1000

-- ## is_safe_skill_name (server.py lines 54-59)

def isSafeChar (c : Char) : Bool := c.isAlphanum || c == '-' || c == '_'

def matchesSafePattern (s : Str) : Bool := !s.isEmpty && s.all isSafeChar

/-- Models `re.match(r'^[a-zA-Z0-9\-_]+$', name)`: in Python, `$` also
matches just before one trailing newline. -/
def is_safe_skill_name (name : Str) : Bool :=
  matchesSafePattern name ||
    (match name.getLast? with
     | some c => c == '\n' && matchesSafePattern name.dropLast
     | none => false)

-- ## Usage tracker (_USAGE_STATS, track_usage — server.py lines 30-35, 212-231)

structure SearchRecord where
  query : Str
  timestamp : Str
deriving DecidableEq

structure TrackDetails where
  domain : Option Str
  query : Option Str
deriving DecidableEq

structure UsageStats where
  tool_calls : List (Str × ℕ)
  skill_loads : List (Str × ℕ)
  searches : List SearchRecord
  start_time : Str
deriving DecidableEq

def initUsageStats (start : Str) : UsageStats := ⟨[], [], [], start⟩

/-- Python dict counter bump: `if k not in m: m[k] = 0; m[k] += 1`
(insertion order preserved, new keys appended). -/
def bumpCounter (m : List (Str × ℕ)) (k : Str) : List (Str × ℕ) :=
  if m.any (fun kv => kv.1 == k) then
    m.map (fun kv => if kv.1 == k then (kv.1, kv.2 + 1) else kv)
  else m ++ [(k, 1)]

def countOf (m : List (Str × ℕ)) (k : Str) : ℕ :=
  ((m.find? (fun kv => kv.1 == k)).map (fun kv => kv.2)).getD 0

/-- Append to a `deque(maxlen=cap)`: the oldest entries are evicted so that
the buffer never exceeds `cap`. -/
def dequeAppend (cap : ℕ) (xs : List SearchRecord) (x : SearchRecord) : List SearchRecord :=
  let ys := xs ++ [x]
  ys.drop (ys.length - cap)

/-- track_usage (server.py lines 212-231).  `details = None` models the call
sites that pass no details; an absent key models a key missing from the dict. -/
def track_usage (tool_name : Str) (details : Option TrackDetails) (now : Str)
    (st : UsageStats) : UsageStats :=
  let st := { st with tool_calls := bumpCounter st.tool_calls tool_name }
  match details with
  | none => st
  | some d =>
    let st :=
      match d.domain with
      | some dom => { st with skill_loads := bumpCounter st.skill_loads dom }
      | none => st
    match d.query with
    | some q => { st with searches := dequeAppend 100 st.searches ⟨q, now⟩ }
    | none => st

-- ## Metadata search (_search_skills — server.py lines 410-472)

structure SubSkill where
  name : Str
  file : Str
  triggers : List Str
deriving DecidableEq

structure Skill where
  name : Str
  description : Str
  tags : List Str
  sub_skills : List SubSkill
deriving DecidableEq

/-- One search result row; the source's `match` key is `matchKind` here
(`match` is reserved in Lean). -/
structure MetaResult where
  domain : Str
  sub_skill : Option Str
  score : ℚ
  matchKind : Str
deriving DecidableEq

/-- Domain-level match rule of `_search_skills` (lines 429-449): first
matching rule among name (0.9), description (0.7), tags (0.8) wins;
`none` models `score = 0` (no row appended). -/
def skillDomainMatch (query_lower : Str) (s : Skill) : Option MetaResult :=
  if isSubstring query_lower (pyLower s.name) then
    some ⟨s.name, none, mkRat 9 10, chars "name"⟩
  else if isSubstring query_lower (pyLower s.description) then
    some ⟨s.name, none, mkRat 7 10, chars "description"⟩
  else if s.tags.any (fun t => isSubstring query_lower (pyLower t)) then
    some ⟨s.name, none, mkRat 8 10, chars "tags"⟩
  else none

/-- Sub-skill match rule of `_search_skills` (lines 452-469). -/
def subSkillMatch (query_lower : Str) (domainName : Str) (sub : SubSkill) : Option MetaResult :=
  if isSubstring query_lower (pyLower sub.name) then
    some ⟨domainName, some sub.name, mkRat 85 100, chars "name"⟩
  else if sub.triggers.any (fun t => isSubstring query_lower (pyLower t)) then
    some ⟨domainName, some sub.name, mkRat 9 10, chars "triggers"⟩
  else none

/-- All rows appended by the scan loop of `_search_skills`, in loop order. -/
def collectMetaResults (query_lower : Str) (skills : List Skill) : List MetaResult :=
  (skills.map (fun s =>
    (skillDomainMatch query_lower s).toList ++
      s.sub_skills.filterMap (subSkillMatch query_lower s.name))).flatten

/-- Stable insertion for the descending-by-score sort: `x` passes over `y`
only when `x`'s score is strictly below `y`'s, so equal scores keep their
original order, exactly like Python's stable `list.sort`. -/
def insertByScore {α : Type} (f : α → ℚ) (x : α) : List α → List α
  | [] => [x]
  | y :: ys => if Rat.blt (f x) (f y) then y :: insertByScore f x ys else x :: y :: ys

/-- Python `results.sort(key=lambda x: x["score"], reverse=True)` (stable). -/
def sortByScoreDesc {α : Type} (f : α → ℚ) : List α → List α
  | [] => []
  | x :: xs => insertByScore f x (sortByScoreDesc f xs)

/-- `limit = max(1, min(limit, 100))`. -/
def clampLimit (limit : ℕ) : ℕ := max 1 (min limit 100)

structure MetaSearchOut where
  query : Str
  error : Option Str
  results : List MetaResult
deriving DecidableEq

/-- _search_skills (server.py lines 410-472), with the module-level usage
stats threaded explicitly.  Validation failures return before tracking. -/
def search_skills (skills : List Skill) (query : Str) (limit : ℕ) (now : Str)
    (st : UsageStats) : UsageStats × MetaSearchOut :=
  if query.isEmpty || (pyStrip query).isEmpty then
    (st, ⟨query, some (chars "Query cannot be empty"), []⟩)
  else if 1000 < query.length then
    (st, ⟨query, some (chars "Query too long (max 1000 characters)"), []⟩)
  else
    let limit := clampLimit limit
    let st := track_usage (chars "search_skills") (some ⟨none, some query⟩) now st
    let query_lower := pyLower query
    let results := collectMetaResults query_lower skills
    (st, ⟨query, none, (sortByScoreDesc (fun r => r.score) results).take limit⟩)

-- ## Content search (_search_content, extract_snippet — server.py lines 475-564)

/-- One row of the content index built by `build_content_index`: the content
is stored already lower-cased. -/
structure ContentEntry where
  domain : Str
  sub_skill : Option Str
  file : Str
  content : Str
deriving DecidableEq

structure ContentResult where
  domain : Str
  sub_skill : Option Str
  file : Str
  score : ℚ
  snippet : Str
deriving DecidableEq

/-- Relevance score of one index entry (server.py lines 503-523). -/
def contentScore (query_lower : Str) (query_words : List Str) (content : Str) : ℚ :=
  if isSubstring query_lower content then
    if isSubstring query_lower (content.take 500) then mkRat 12 10 else mkRat 1 1
  else if query_words.all (fun w => isSubstring w content) then
    let nMatches := (query_words.map (fun w => pyCount content w)).sum
    Rat.add (mkRat 7 10) (pyMin (Rat.mul (mkRat (Int.ofNat nMatches) 1) (mkRat 5 100)) (mkRat 2 10))
  else
    let nMatches := (query_words.filter (fun w => isSubstring w content)).length
    if 0 < nMatches then
      Rat.mul (mkRat 3 10) (mkRat (Int.ofNat nMatches) (query_words.length))
    else mkRat 0 1

/-- extract_snippet (server.py lines 541-564) with `max_length = 150`. -/
def extract_snippet (content : Str) (query : Str) (max_length : ℕ) : Str :=
  let pos := pyFind content query
  let pos :=
    if pos == -1 then
      match (pySplit query).filterMap (fun w =>
        match pyFind content w with
        | Int.negSucc _ => none
        | p => some p) |>.head? with
      | some p => p
      | none => (-1 : Int)
    else pos
  if pos == -1 then content.take max_length ++ chars "..."
  else
    let posN := pos.toNat
    let start := posN - 50
    let stop := min content.length (posN + max_length)
    let snippet := (content.take stop).drop start
    let snippet := if 0 < start then chars "..." ++ snippet else snippet
    let snippet := if stop < content.length then snippet ++ chars "..." else snippet
    pyStrip (snippet.map (fun c => if c == '\n' then ' ' else c))

structure ContentSearchOut where
  query : Str
  error : Option Str
  results : List ContentResult
deriving DecidableEq

/-- _search_content (server.py lines 475-538) over an explicit content index
snapshot; the usage stats are threaded explicitly and, as in the source,
are touched only after all three validation gates pass. -/
def search_content (cindex : List ContentEntry) (query : Str) (limit : ℕ) (now : Str)
    (st : UsageStats) : UsageStats × ContentSearchOut :=
  if query.isEmpty || (pyStrip query).isEmpty then
    (st, ⟨query, some (chars "Query cannot be empty"), []⟩)
  else if 1000 < query.length then
    (st, ⟨query, some (chars "Query too long (max 1000 characters)"), []⟩)
  else
    let query_words := pySplit (pyLower query)
    if 100 < query_words.length then
      (st, ⟨query, some (chars "Too many search terms (max 100 words)"), []⟩)
    else
      let limit := clampLimit limit
      let st := track_usage (chars "search_content") (some ⟨none, some query⟩) now st
      let query_lower := pyLower query
      let results := cindex.filterMap (fun e =>
        let score := contentScore query_lower query_words e.content
        if Rat.blt 0 score then
          some ⟨e.domain, e.sub_skill, e.file, round3 score,
                extract_snippet e.content query_lower 150⟩
        else none)
      (st, ⟨query, none, (sortByScoreDesc (fun r => r.score) results).take limit⟩)

-- ## Dynamic metadata values and Python container semantics

/-- Exceptions that `load_index`, `_get_skills_batch` and `_validate_skills`
do not catch and therefore propagate to their caller. -/
inductive PyErr where
  | typeError
  | keyError
  | attributeError
  | osError
deriving DecidableEq

/-- Parsed `_meta.json` content of arbitrary JSON shape (what `json.loads`
can return), needed because malformed metadata must be representable. -/
inductive Json where
  | null : Json
  | bool : Bool → Json
  | num : Int → Json
  | str : Str → Json
  | arr : List Json → Json
  | obj : List (Str × Json) → Json

/-- Python `==` between a value and a `str` (never raises; non-strings
compare unequal). -/
def jsonEqStr : Json → Str → Bool
  | Json.str t, s => t == s
  | _, _ => false

/-- Python `key in container` for a `str` key: dict key lookup, list
membership, substring test on strings; `TypeError` on non-containers. -/
def pyContains (container : Json) (key : Str) : Except PyErr Bool :=
  match container with
  | Json.obj kvs => Except.ok (kvs.any (fun kv => kv.1 == key))
  | Json.arr xs => Except.ok (xs.any (fun x => jsonEqStr x key))
  | Json.str s => Except.ok (isSubstring key s)
  | _ => Except.error PyErr.typeError

/-- Python `container[key]` for a `str` key: dict lookup (`KeyError` when
absent), `TypeError` on every other shape (list and string indices must be
integers; other values are not subscriptable). -/
def pySubscript (container : Json) (key : Str) : Except PyErr Json :=
  match container with
  | Json.obj kvs =>
    match kvs.find? (fun kv => kv.1 == key) with
    | some kv => Except.ok kv.2
    | none => Except.error PyErr.keyError
  | _ => Except.error PyErr.typeError

/-- Python `container.get(key, default)`: dict lookup with default;
`AttributeError` on every non-dict value. -/
def pyGet (container : Json) (key : Str) (default : Json) : Except PyErr Json :=
  match container with
  | Json.obj kvs =>
    match kvs.find? (fun kv => kv.1 == key) with
    | some kv => Except.ok kv.2
    | none => Except.ok default
  | _ => Except.error PyErr.attributeError

/-- Python truthiness of a JSON-shaped value. -/
def jTruthy : Json → Bool
  | Json.null => false
  | Json.bool b => b
  | Json.num n => !(n == 0)
  | Json.str s => !s.isEmpty
  | Json.arr xs => !xs.isEmpty
  | Json.obj kvs => !kvs.isEmpty

/-- Rendering of a value inside an f-string error message (`str(x)`),
kept schematic for non-scalar values. -/
def pyStr : Json → Str
  | Json.null => chars "None"
  | Json.bool true => chars "True"
  | Json.bool false => chars "False"
  | Json.num n => (toString n).data
  | Json.str s => s
  | Json.arr _ => chars "[...]"
  | Json.obj _ => chars "(...)"

-- ## Metadata validator (validate_meta — server.py lines 72-98)

/-- validate_meta: collects human-readable error strings; any `TypeError`
raised by the Python container operations on oddly-shaped values
propagates (the source has no handler for it). -/
def validate_meta (meta : Json) (skill_name : Str) : Except PyErr (List Str) := do
  let mut errors : List Str := []
  for field in [chars "name", chars "description"] do
    if !(← pyContains meta field) then
      errors := errors ++ [skill_name ++ chars ": Missing required field " ++ field]
  if (← pyContains meta (chars "name")) then
    let v ← pySubscript meta (chars "name")
    if !(jsonEqStr v skill_name) then
      errors := errors ++
        [skill_name ++ chars ": name field (" ++ pyStr v ++ chars ") doesnt match directory name"]
  if (← pyContains meta (chars "tags")) then
    let tags ← pySubscript meta (chars "tags")
    match tags with
    | Json.arr ts =>
      if !(ts.all (fun t => match t with | Json.str _ => true | _ => false)) then
        errors := errors ++ [skill_name ++ chars ": All tags must be strings"]
    | _ => errors := errors ++ [skill_name ++ chars ": tags must be a list"]
  if (← pyContains meta (chars "sub_skills")) then
    let subs ← pySubscript meta (chars "sub_skills")
    match subs with
    | Json.arr xs =>
      for isub in xs.enum do
        for field in [chars "name", chars "file"] do
          if !(← pyContains isub.2 field) then
            errors := errors ++
              [skill_name ++ chars ": sub_skill[" ++ (toString isub.1).data ++
                chars "] missing required field " ++ field]
    | _ => errors := errors ++ [skill_name ++ chars ": sub_skills must be a list"]
  return errors

-- ## Metadata index loader (load_index — server.py lines 162-200)

/-- Outcome of reading and parsing one domain's `_meta.json`. -/
inductive MetaRead where
  | missing
  | ioError (msg : Str)
  | parseError (msg : Str)
  | parsed (j : Json)

structure MetaIndex where
  skills : List Json
  validation_errors : List Str

/-- load_index over a directory snapshot (`(dir name, meta read outcome)`
per immediate subdirectory, in iteration order).  The source catches only
`JSONDecodeError`, `OSError` and `UnicodeDecodeError`; an exception from
`validate_meta` escapes. -/
def load_index (rootExists : Bool) (dirs : List (Str × MetaRead)) :
    Except PyErr MetaIndex := do
  let mut index : MetaIndex := ⟨[], []⟩
  if !rootExists then
    return index
  for d in dirs do
    match d.2 with
    | MetaRead.missing => pure ()
    | MetaRead.parseError msg =>
      index := { index with validation_errors :=
        index.validation_errors ++ [d.1 ++ chars ": Invalid JSON in _meta.json: " ++ msg] }
    | MetaRead.ioError msg =>
      index := { index with validation_errors :=
        index.validation_errors ++ [d.1 ++ chars ": Failed to read _meta.json: " ++ msg] }
    | MetaRead.parsed meta =>
      let errors ← validate_meta meta d.1
      index := { index with
        skills := index.skills ++ [meta],
        validation_errors := index.validation_errors ++ errors }
  return index

-- ## Document-store snapshot used by the facade operations

/-- One domain directory of the document store. `skillMd` is the readable
content of `SKILL.md` when present; `files` maps the other relative paths
that exist under the directory to their readable content. -/
structure SkillDir where
  name : Str
  metaRead : MetaRead
  skillMd : Option Str
  hasReferences : Bool
  files : List (Str × Str)

structure SkillsFS where
  rootExists : Bool
  dirs : List SkillDir

def findDir (fs : SkillsFS) (name : Str) : Option SkillDir :=
  fs.dirs.find? (fun d => d.name == name)

def lookupFile (d : SkillDir) (rel : Str) : Option Str :=
  ((d.files.find? (fun f => f.1 == rel)).map (fun f => f.2))

/-- Models validate_skill_path for `SKILLS_DIR / rel`: the resolved path
stays inside the root iff `rel` is not absolute and climbs through no `..`
segment (a conservative model of `Path.resolve` containment; names that
pass `is_safe_skill_name` always satisfy it). -/
def validate_skill_path (rel : Str) : Bool :=
  (match rel with
   | '/' :: _ => false
   | _ => true) && (splitSlash rel).all (fun seg => !(seg == chars ".."))

-- ## Facade result shapes

inductive GetResult where
  | error (msg : Str)
  | skill (name : Str) (content : Str) (sub_skills : List Str) (has_references : Bool)
  | sub (domain : Str) (sub_skill : Str) (content : Str)
deriving DecidableEq

-- ## _list_skills (server.py lines 301-314)

structure ListEntry where
  name : Str
  description : Str
  sub_skills : List Str
deriving DecidableEq

def list_skills (skills : List Skill) (now : Str) (st : UsageStats) :
    UsageStats × List ListEntry :=
  (track_usage (chars "list_skills") none now st,
   skills.map (fun s => ⟨s.name, s.description, s.sub_skills.map (fun sub => sub.name)⟩))

-- ## _get_skill (server.py lines 317-350)

/-- Result value of `_get_skill`; validation, path checks and lookups in
source order. -/
def get_skill_res (fs : SkillsFS) (skills : List Skill) (name : Str) : GetResult :=
  if !is_safe_skill_name name then
    GetResult.error (chars "Invalid skill name: " ++ name)
  else if !validate_skill_path name then
    GetResult.error (chars "Invalid skill path: " ++ name)
  else
    match findDir fs name with
    | none => GetResult.error (chars "Skill " ++ name ++ chars " not found")
    | some d =>
      match d.skillMd with
      | none => GetResult.error (chars "Skill " ++ name ++ chars " not found")
      | some content =>
        let meta := skills.find? (fun s => s.name == name)
        GetResult.skill name content
          ((meta.map (fun s => s.sub_skills.map (fun sub => sub.name))).getD [])
          d.hasReferences

/-- _get_skill with the usage stats threaded: the source returns before
`track_usage` when the name fails the safe-name check, and records the
domain load otherwise. -/
def get_skill (fs : SkillsFS) (skills : List Skill) (name : Str) (now : Str)
    (st : UsageStats) : UsageStats × GetResult :=
  ((if is_safe_skill_name name then
      track_usage (chars "get_skill") (some ⟨some name, none⟩) now st
    else st),
   get_skill_res fs skills name)

-- ## _get_sub_skill (server.py lines 353-390)

/-- Result value of `_get_sub_skill`.  `domain` and `sub_skill` are
JSON-shaped because the batch endpoint forwards arbitrary request fields;
`is_safe_skill_name` rejects every non-string domain, and a non-string
`sub_skill` simply matches no sub-skill name. -/
def get_sub_skill_res (fs : SkillsFS) (skills : List Skill) (domain sub_skill : Json) :
    GetResult :=
  let safeDomain := match domain with
    | Json.str d => if is_safe_skill_name d then some d else none
    | _ => none
  match safeDomain with
  | none => GetResult.error (chars "Invalid domain name: " ++ pyStr domain)
  | some d =>
    match skills.find? (fun s => s.name == d) with
    | none => GetResult.error (chars "Domain " ++ d ++ chars " not found")
    | some meta =>
      match meta.sub_skills.find? (fun s => jsonEqStr sub_skill s.name) with
      | none =>
        GetResult.error (chars "Sub-skill " ++ pyStr sub_skill ++ chars " not found in " ++ d)
      | some sub =>
        if !validate_skill_path sub.file then
          GetResult.error (chars "Invalid file path")
        else
          match findDir fs d with
          | none => GetResult.error (chars "File not found: " ++ sub.file)
          | some dir =>
            match lookupFile dir sub.file with
            | none => GetResult.error (chars "File not found: " ++ sub.file)
            | some content => GetResult.sub d (pyStr sub_skill) content

/-- _get_sub_skill with the usage stats threaded (tracking happens exactly
when the domain passes the safe-name check, with the domain recorded as a
load; the `sub_skill` detail key is ignored by `track_usage`). -/
def get_sub_skill (fs : SkillsFS) (skills : List Skill) (domain sub_skill : Str)
    (now : Str) (st : UsageStats) : UsageStats × GetResult :=
  ((if is_safe_skill_name domain then
      track_usage (chars "get_sub_skill") (some ⟨some domain, none⟩) now st
    else st),
   get_sub_skill_res fs skills (Json.str domain) (Json.str sub_skill))

-- ## _get_skills_batch (server.py lines 393-407)

structure BatchOut where
  results : List GetResult
deriving DecidableEq

/-- Loop body of `_get_skills_batch` for one record-shaped request element:
a truthy `sub_skill` routes to `_get_sub_skill`, otherwise `_get_skill`. -/
def batch_item_result (fs : SkillsFS) (skills : List Skill) (kvs : List (Str × Json)) :
    GetResult :=
  let domain := (((kvs.find? (fun kv => kv.1 == chars "domain")).map (fun kv => kv.2)).getD Json.null)
  let sub_skill := (((kvs.find? (fun kv => kv.1 == chars "sub_skill")).map (fun kv => kv.2)).getD Json.null)
  if jTruthy sub_skill then get_sub_skill_res fs skills domain sub_skill
  else
    match domain with
    | Json.str d => get_skill_res fs skills d
    | j => GetResult.error (chars "Invalid skill name: " ++ pyStr j)

/-- Loop body of `_get_skills_batch` for one request element, result part:
`req.get("domain")` / `req.get("sub_skill")` raise `AttributeError` when the
element is not a dict. -/
def batch_item_res (fs : SkillsFS) (skills : List Skill) (req : Json) :
    Except PyErr GetResult :=
  match req with
  | Json.obj kvs => Except.ok (batch_item_result fs skills kvs)
  | _ => Except.error PyErr.attributeError

/-- Loop body of `_get_skills_batch` for one request element, usage-stats
part (the `track_usage` calls made inside `_get_skill` / `_get_sub_skill`,
which happen exactly when the domain passes the safe-name check). -/
def batch_item_track (req : Json) (now : Str) (st : UsageStats) : UsageStats :=
  match req with
  | Json.obj kvs =>
    match (((kvs.find? (fun kv => kv.1 == chars "domain")).map (fun kv => kv.2)).getD Json.null) with
    | Json.str d =>
      if is_safe_skill_name d then
        track_usage
          (if jTruthy (((kvs.find? (fun kv => kv.1 == chars "sub_skill")).map
              (fun kv => kv.2)).getD Json.null)
           then chars "get_sub_skill" else chars "get_skill")
          (some ⟨some d, none⟩) now st
      else st
    | _ => st
  | _ => st

/-- The request loop of `_get_skills_batch`: the first non-dict element
raises, abandoning the collected results (the usage-stats mutations made so
far persist, as they are in module-level state). -/
def batch_loop (fs : SkillsFS) (skills : List Skill) (now : Str) :
    List Json → UsageStats → UsageStats × Except PyErr (List GetResult)
  | [], st => (st, Except.ok [])
  | req :: reqs, st =>
    match batch_item_res fs skills req with
    | Except.error e => (st, Except.error e)
    | Except.ok res =>
      let st := batch_item_track req now st
      match batch_loop fs skills now reqs st with
      | (st', Except.ok ress) => (st', Except.ok (res :: ress))
      | (st', Except.error e) => (st', Except.error e)

/-- _get_skills_batch: tracks the batch call itself first, then processes
the request list in order. -/
def get_skills_batch (fs : SkillsFS) (skills : List Skill) (requests : List Json)
    (now : Str) (st : UsageStats) : UsageStats × Except PyErr BatchOut :=
  let st := track_usage (chars "get_skills_batch") none now st
  match batch_loop fs skills now requests st with
  | (st', Except.ok ress) => (st', Except.ok ⟨ress⟩)
  | (st', Except.error e) => (st', Except.error e)

-- ## _reload_index (server.py lines 567-583)

structure ReloadOut where
  status : Str
  skill_count : ℕ
  content_files_indexed : ℕ
  validation_errors : List Str

/-- _reload_index given the outcome of `load_index` and the size of the
freshly built content index: tracking happens only after the load returns
(an exception from the load leaves the stats untouched). -/
def reload_index (load : Except PyErr MetaIndex) (contentCount : ℕ) (now : Str)
    (st : UsageStats) : UsageStats × Except PyErr ReloadOut :=
  match load with
  | Except.error e => (st, Except.error e)
  | Except.ok idx =>
    (track_usage (chars "reload_index") none now st,
     Except.ok ⟨chars "reloaded", idx.skills.length, contentCount, idx.validation_errors⟩)

-- ## _get_stats (server.py lines 586-604)

structure StatsSnapshot where
  uptime_since : Str
  tool_calls : List (Str × ℕ)
  skill_loads : List (Str × ℕ)
  recent_searches : List SearchRecord
  total_skills : ℕ
  content_files_indexed : ℕ
deriving DecidableEq

/-- _get_stats: copies the counters, takes `list(searches)[-10:]` (the last
ten recorded searches) and adds the index sizes; it never calls
`track_usage`. -/
def get_stats (skills : List Skill) (contentCount : ℕ) (st : UsageStats) :
    UsageStats × StatsSnapshot :=
  (st,
   ⟨st.start_time, st.tool_calls, st.skill_loads, takeLast 10 st.searches,
    skills.length, contentCount⟩)

-- ## _validate_skills (server.py lines 607-655)

structure ValidateOut where
  valid : Bool
  errors : List Str
  warnings : List Str
  skills_checked : ℕ

/-- _validate_skills: iterates the domain directories; only
`json.JSONDecodeError` is caught around the metadata handling, so a read
failure, a `TypeError` out of `validate_meta`, an `AttributeError` from
`meta.get` on a non-dict, a `KeyError` on `sub["file"]` or a `TypeError`
when joining a non-string file path all propagate.  It never touches the
usage stats. -/
def validate_skills_res (fs : SkillsFS) : Except PyErr ValidateOut := do
  if !fs.rootExists then
    throw PyErr.osError
  let mut errors : List Str := []
  let mut warnings : List Str := []
  for d in fs.dirs do
    match d.metaRead with
    | MetaRead.missing =>
      errors := errors ++ [d.name ++ chars ": Missing _meta.json"]
    | MetaRead.ioError _ =>
      throw PyErr.osError
    | MetaRead.parseError msg =>
      if d.skillMd.isNone then
        errors := errors ++ [d.name ++ chars ": Missing SKILL.md"]
      errors := errors ++ [d.name ++ chars ": Invalid JSON in _meta.json: " ++ msg]
    | MetaRead.parsed meta =>
      if d.skillMd.isNone then
        errors := errors ++ [d.name ++ chars ": Missing SKILL.md"]
      let metaErrors ← validate_meta meta d.name
      errors := errors ++ metaErrors
      let subs ← pyGet meta (chars "sub_skills") (Json.arr [])
      match subs with
      | Json.arr xs =>
        for sub in xs do
          let f ← pySubscript sub (chars "file")
          match f with
          | Json.str fname =>
            if (lookupFile d fname).isNone then
              errors := errors ++ [d.name ++ chars ": Sub-skill file not found: " ++ fname]
          | _ => throw PyErr.typeError
      | Json.str s =>
        for c in s do
          let f ← pySubscript (Json.str [c]) (chars "file")
          match f with
          | Json.str fname =>
            if (lookupFile d fname).isNone then
              errors := errors ++ [d.name ++ chars ": Sub-skill file not found: " ++ fname]
          | _ => throw PyErr.typeError
      | _ => throw PyErr.typeError
      let tags ← pyGet meta (chars "tags") Json.null
      if !jTruthy tags then
        warnings := warnings ++ [d.name ++ chars ": No tags defined"]
      let subsAgain ← pyGet meta (chars "sub_skills") Json.null
      if !jTruthy subsAgain then
        warnings := warnings ++ [d.name ++ chars ": No sub-skills defined (standalone skill)"]
  return ⟨errors.isEmpty, errors, warnings, fs.dirs.length⟩

/-- _validate_skills with the usage stats threaded: there is no
`track_usage` call anywhere in it. -/
def validate_skills (fs : SkillsFS) (st : UsageStats) :
    UsageStats × Except PyErr ValidateOut :=
  (st, validate_skills_res fs)

-- ## Change detector (check_for_changes — server.py lines 234-274)

/-- Sampled watch state: whether the skills root exists and, when it does,
the mapping from each (accessible) file under a domain directory to its
modification time, as `rglob` visits it. -/
structure WatchFS where
  rootExists : Bool
  files : List (Str × ℕ)

def mtimeLookup (snap : List (Str × ℕ)) (p : Str) : Option ℕ :=
  ((snap.find? (fun f => f.1 == p)).map (fun f => f.2))

/-- check_for_changes: compares the stored mtime snapshot against the fresh
sample and replaces the stored snapshot — except that a missing root
returns `false` immediately, leaving the stored snapshot in place. -/
def check_for_changes (fs : WatchFS) (stored : List (Str × ℕ)) :
    Bool × List (Str × ℕ) :=
  if !fs.rootExists then (false, stored)
  else
    let current := fs.files
    let changedScan := current.any (fun pm =>
      match mtimeLookup stored pm.1 with
      | some m => !(m == pm.2)
      | none => true)
    let changedDeleted := stored.any (fun pm => (mtimeLookup current pm.1).isNone)
    (changedScan || changedDeleted, current)

-- ## Lock discipline of the snapshot caches (server.py lines 37-41 and the
-- `with` blocks of load_index, get_index, _search_content, _reload_index,
-- _get_stats, check_for_changes)

inductive LockId where
  | indexLock
  | contentIndexLock
  | fileMtimesLock
  | statsLock
deriving DecidableEq

inductive LockEv where
  | acq (l : LockId)
  | rel (l : LockId)
deriving DecidableEq

/-- Lock acquisitions of `load_index` (line 196). -/
def loadIndexTrace : List LockEv :=
  [LockEv.acq LockId.contentIndexLock, LockEv.rel LockId.contentIndexLock]

/-- Lock acquisitions of `get_index` (lines 206-209): on the cold path
(`_INDEX is None`) it calls `load_index` while holding the index lock. -/
def getIndexTrace (cold : Bool) : List LockEv :=
  [LockEv.acq LockId.indexLock] ++ (if cold then loadIndexTrace else []) ++
    [LockEv.rel LockId.indexLock]

/-- Lock acquisitions of `_reload_index` (lines 567-583): `load_index`
first (content lock), then the index lock for the swap, then the content
lock again for the count — strictly sequential. -/
def reloadIndexTrace : List LockEv :=
  loadIndexTrace ++ [LockEv.acq LockId.indexLock, LockEv.rel LockId.indexLock] ++
    [LockEv.acq LockId.contentIndexLock, LockEv.rel LockId.contentIndexLock]

/-- Lock acquisitions of `_search_content` (lines 493-538): the whole body,
including the `get_index()` call made when the content index is missing,
runs inside the content-index lock. -/
def searchContentTrace (contentCold indexCold : Bool) : List LockEv :=
  [LockEv.acq LockId.contentIndexLock] ++
    (if contentCold then getIndexTrace indexCold else []) ++
    [LockEv.rel LockId.contentIndexLock]

/-- Lock acquisitions of `_get_stats` (lines 586-604): stats lock released
before the index locks are taken. -/
def getStatsTrace (indexCold : Bool) : List LockEv :=
  [LockEv.acq LockId.statsLock, LockEv.rel LockId.statsLock] ++
    getIndexTrace indexCold ++
    [LockEv.acq LockId.contentIndexLock, LockEv.rel LockId.contentIndexLock]

/-- Lock acquisitions of `check_for_changes` (lines 244-272). -/
def checkForChangesTrace : List LockEv :=
  [LockEv.acq LockId.fileMtimesLock, LockEv.rel LockId.fileMtimesLock]

/-- Multiset of locks held while a trace is replayed. -/
def heldAfter : List LockId → LockEv → List LockId
  | held, LockEv.acq l => l :: held
  | held, LockEv.rel l => held.erase l

def maxHeldAux : List LockId → List LockEv → ℕ
  | held, [] => held.length
  | held, ev :: evs => max held.length (maxHeldAux (heldAfter held ev) evs)

/-- Largest number of (snapshot) locks held simultaneously at any point of
the trace. -/
def maxHeld (tr : List LockEv) : ℕ := maxHeldAux [] tr

def nestedAcqAux : List LockId → List LockEv → Bool
  | _, [] => false
  | held, ev :: evs =>
    (match ev with
     | LockEv.acq l => held.contains l
     | LockEv.rel _ => false) || nestedAcqAux (heldAfter held ev) evs

/-- True when some lock is acquired while the same (non-reentrant) lock is
already held — a self-deadlock with `threading.Lock`. -/
def nestedAcq (tr : List LockEv) : Bool := nestedAcqAux [] tr

-- ## Generic lemmas about the sort and the counters

theorem insertByScore_perm {α : Type} (f : α → ℚ) (x : α) (l : List α) :
    (insertByScore f x l).Perm (x :: l) := by
  induction l with
  | nil => simp [insertByScore]
  | cons y ys ih =>
    unfold insertByScore
    split
    · exact ((ih.cons y).trans (List.Perm.swap x y ys))
    · exact List.Perm.refl _

theorem sortByScoreDesc_perm {α : Type} (f : α → ℚ) (l : List α) :
    (sortByScoreDesc f l).Perm l := by
  induction l with
  | nil => simp [sortByScoreDesc]
  | cons x xs ih =>
    exact (insertByScore_perm f x (sortByScoreDesc f xs)).trans (ih.cons x)

theorem sortByScoreDesc_length {α : Type} (f : α → ℚ) (l : List α) :
    (sortByScoreDesc f l).length = l.length :=
  (sortByScoreDesc_perm f l).length_eq

-- ## C2 — fault isolation of the metadata index loader

def goodMeta : Json :=
  Json.obj [(chars "name", Json.str (chars "good")),
            (chars "description", Json.str (chars "a fine skill"))]

/-- C2: the claim that the Metadata Index Loader never raises on metadata of
arbitrary JSON shape is violated by the code: a `_meta.json` that parses to
the number `5` makes `validate_meta` evaluate `"name" not in 5`, raising
`TypeError`, which `load_index` does not catch — so the whole load raises
and the well-formed sibling domain is lost as well. -/
theorem load_index_raises_on_nonobject_meta :
    load_index true [(chars "good", MetaRead.parsed goodMeta),
                     (chars "bad", MetaRead.parsed (Json.num 5))] =
      Except.error PyErr.typeError := rfl

-- ## C9 — lock nesting of the index rebuild paths

/-- C9: the claim that no operation ever holds more than one snapshot lock
fails on the code: the lazy first-access load (`get_index` with `_INDEX`
still unset) holds the metadata-index lock while `load_index` takes the
content-index lock, and a cold `_search_content` holds the content-index
lock while `get_index` runs — on a fully cold start it even re-acquires the
already-held non-reentrant content-index lock (self-deadlock).  Only the
explicit `_reload_index` path is sequential as claimed. -/
theorem search_content_cold_nests_locks :
    maxHeld (searchContentTrace true true) = 3 ∧
    nestedAcq (searchContentTrace true true) = true ∧
    maxHeld (getIndexTrace true) = 2 ∧
    maxHeld reloadIndexTrace = 1 ∧
    nestedAcq reloadIndexTrace = false ∧
    maxHeld (getStatsTrace false) = 1 ∧
    maxHeld checkForChangesTrace = 1 := by decide

-- ## C7 — batch get: order preservation, isolation, and the non-record crash

def fsEmptyStore : SkillsFS := ⟨true, []⟩

/-- C7 counterexample: the claim says a malformed (non-record) batch element
yields a structured error result in its position and that `getBatch` never
raises; in fact `req.get("domain")` on the integer element raises
`AttributeError`, aborting the whole batch. -/
theorem get_skills_batch_raises_on_nonrecord :
    (get_skills_batch fsEmptyStore [] [Json.num 5] (chars "t")
        (initUsageStats (chars "s"))).2 =
      Except.error PyErr.attributeError := rfl

-- ## C6 — stats snapshot contents

/-- C6 (amended): the stats snapshot copies the two counter maps and the
start timestamp, but of the recent-searches buffer it returns only the last
ten entries (`list(searches)[-10:]`), and it leaves the stats unchanged. -/
theorem get_stats_copies_counters_and_last_ten (skills : List Skill)
    (contentCount : ℕ) (st : UsageStats) :
    (get_stats skills contentCount st).2.tool_calls = st.tool_calls ∧
    (get_stats skills contentCount st).2.skill_loads = st.skill_loads ∧
    (get_stats skills contentCount st).2.uptime_since = st.start_time ∧
    (get_stats skills contentCount st).2.recent_searches = takeLast 10 st.searches ∧
    (get_stats skills contentCount st).2.recent_searches.length =
      min st.searches.length 10 ∧
    (get_stats skills contentCount st).1 = st := by
  refine ⟨rfl, rfl, rfl, rfl, ?_, rfl⟩
  simp only [get_stats, takeLast, List.length_drop]
  omega

def statsEleven : UsageStats := ⟨[], [], List.replicate 11 ⟨[], []⟩, []⟩

/-- C6 counterexample: with eleven recorded searches the snapshot's
recent-searches list has ten entries, not the entire buffer. -/
theorem get_stats_drops_older_searches :
    statsEleven.searches.length = 11 ∧
    (get_stats [] 0 statsEleven).2.recent_searches.length = 10 := by decide

-- ## C4 — change detection counterexample (missing root)

/-- C4 counterexample: with the skills root deleted between the two calls,
every previously tracked file has been removed, yet `check_for_changes`
returns `false` and leaves the stored snapshot unchanged instead of
replacing it with the fresh (empty) sample — refuting both the claimed
iff and the claimed unconditional snapshot replacement. -/
theorem check_for_changes_misses_root_deletion :
    (check_for_changes ⟨false, []⟩ [(chars "skills/d/SKILL.md", 1)]).1 = false ∧
    (check_for_changes ⟨false, []⟩ [(chars "skills/d/SKILL.md", 1)]).2 =
      [(chars "skills/d/SKILL.md", 1)] := ⟨rfl, rfl⟩

-- ## C5 — operations that do not touch the usage counters

/-- C5 counterexample: a metadata search rejected for a whitespace-only
query, a stats call, and a validate-all call each leave the usage stats
untouched, refuting the claim that every facade operation increments its
counter on every call (including rejected ones). -/
theorem rejected_and_readonly_calls_not_tracked :
    (search_skills [] (chars " ") 5 (chars "t") (initUsageStats [])).1 =
      initUsageStats [] ∧
    (get_stats [] 0 (initUsageStats [])).1 = initUsageStats [] ∧
    (validate_skills ⟨true, []⟩ (initUsageStats [])).1 = initUsageStats [] :=
  ⟨rfl, rfl, rfl⟩

-- ## C1 — metadata search priority counterexample

def skillAlpha : Skill :=
  ⟨chars "alpha", chars "uses zod here", [chars "zod"], []⟩

/-- C1 counterexample: for a domain whose name does not contain the query
but whose description and a tag both do, the single domain-level entry has
match-kind "description" with score 0.7 — not "tags" with 0.8 as claimed:
the source checks description before tags. -/
theorem search_skills_prefers_description_over_tags :
    isSubstring (pyLower (chars "zod")) (pyLower skillAlpha.name) = false ∧
    isSubstring (pyLower (chars "zod")) (pyLower skillAlpha.description) = true ∧
    skillAlpha.tags.any (fun t => isSubstring (pyLower (chars "zod")) (pyLower t)) = true ∧
    (search_skills [skillAlpha] (chars "zod") 5 (chars "t") (initUsageStats [])).2.results =
      [⟨chars "alpha", none, mkRat 7 10, chars "description"⟩] ∧
    (⟨chars "alpha", none, mkRat 8 10, chars "tags"⟩ : MetaResult) ∉
      (search_skills [skillAlpha] (chars "zod") 5 (chars "t") (initUsageStats [])).2.results := by
  refine ⟨rfl, rfl, rfl, rfl, ?_⟩
  decide

-- ## C3 — content search boost counterexample

def straddleContent : Str := List.replicate 499 'a' ++ chars "bc"

/-- C3 counterexample: the query occurs at position 499 — within the first
500 characters — but does not fit inside `content[:500]`, so the score is
1.0, not the claimed 1.2 (the boost tests `query in content[:500]`). -/
theorem content_boost_misses_straddling_match :
    isSubstring (chars "bc") straddleContent = true ∧
    pyFind straddleContent (chars "bc") = 499 ∧
    contentScore (chars "bc") [chars "bc"] straddleContent = mkRat 1 1 ∧
    (mkRat 1 1 : ℚ) ≠ mkRat 12 10 := by
  refine ⟨rfl, rfl, rfl, by decide⟩

-- ## C4 — change detection as snapshot comparison

theorem mtimeLookup_eq_some {snap : List (Str × ℕ)}
    (hnd : (snap.map Prod.fst).Nodup) {pm : Str × ℕ} (hm : pm ∈ snap) :
    mtimeLookup snap pm.1 = some pm.2 := by
  induction snap with
  | nil => cases hm
  | cons q rest ih =>
    rw [List.map_cons, List.nodup_cons] at hnd
    rcases List.mem_cons.mp hm with hq | hrest
    · subst hq
      simp [mtimeLookup, List.find?_cons_of_pos]
    · have hne : ¬ (q.1 = pm.1) := by
        intro he
        exact hnd.1 (he ▸ List.mem_map.mpr ⟨pm, hrest, rfl⟩)
      have hih := ih hnd.2 hrest
      unfold mtimeLookup at hih ⊢
      rw [List.find?_cons_of_neg _ (by simpa using hne)]
      exact hih

theorem mem_of_mtimeLookup {snap : List (Str × ℕ)} {p : Str} {m : ℕ}
    (h : mtimeLookup snap p = some m) : (p, m) ∈ snap := by
  unfold mtimeLookup at h
  rcases hf : snap.find? (fun f => f.1 == p) with _ | kv
  · rw [hf] at h; cases h
  · rw [hf] at h
    have hmem := List.mem_of_find?_eq_some hf
    have hkey : kv.1 = p := by simpa using List.find?_some hf
    have hval : kv.2 = m := by simpa using h
    have : kv = (p, m) := Prod.ext hkey hval
    exact this ▸ hmem

theorem snapshots_differ_iff (stored current : List (Str × ℕ))
    (hs : (stored.map Prod.fst).Nodup) (hc : (current.map Prod.fst).Nodup) :
    ((current.any (fun pm =>
        match mtimeLookup stored pm.1 with
        | some m => !(m == pm.2)
        | none => true) ||
      stored.any (fun pm => (mtimeLookup current pm.1).isNone)) = true ↔
      ¬ ∀ p, mtimeLookup stored p = mtimeLookup current p) := by
  constructor
  · intro hch hall
    rcases Bool.or_eq_true_iff.mp hch with hsc | hdel
    · rcases List.any_eq_true.mp hsc with ⟨pm, hmem, hpred⟩
      have hcur : mtimeLookup current pm.1 = some pm.2 := mtimeLookup_eq_some hc hmem
      rw [hall pm.1, hcur] at hpred
      simp at hpred
    · rcases List.any_eq_true.mp hdel with ⟨pm, hmem, hpred⟩
      have hst : mtimeLookup stored pm.1 = some pm.2 := mtimeLookup_eq_some hs hmem
      rw [← hall pm.1, hst] at hpred
      simp at hpred
  · intro hne
    rcases hAB : (current.any (fun pm =>
        match mtimeLookup stored pm.1 with
        | some m => !(m == pm.2)
        | none => true) ||
      stored.any (fun pm => (mtimeLookup current pm.1).isNone)) with _ | _
    · exfalso
      rcases Bool.or_eq_false_iff.mp hAB with ⟨hA, hB⟩
      apply hne
      intro p
      rcases hst : mtimeLookup stored p with _ | m
      · rcases hcu : mtimeLookup current p with _ | m'
        · rfl
        · exfalso
          have hx : current.any (fun pm =>
              match mtimeLookup stored pm.1 with
              | some m => !(m == pm.2)
              | none => true) = true :=
            List.any_eq_true.mpr ⟨(p, m'), mem_of_mtimeLookup hcu, by simp [hst]⟩
          rw [hA] at hx
          cases hx
      · rcases hcu : mtimeLookup current p with _ | m'
        · exfalso
          have hx : stored.any (fun pm => (mtimeLookup current pm.1).isNone) = true :=
            List.any_eq_true.mpr ⟨(p, m), mem_of_mtimeLookup hst, by simp [hcu]⟩
          rw [hB] at hx
          cases hx
        · have hmm : m = m' := by
            by_contra hne'
            have hx : current.any (fun pm =>
                match mtimeLookup stored pm.1 with
                | some m => !(m == pm.2)
                | none => true) = true :=
              List.any_eq_true.mpr ⟨(p, m'), mem_of_mtimeLookup hcu, by simp [hst, hne']⟩
            rw [hA] at hx
            cases hx
          rw [hmm]
    · rfl

/-- C4 (amended): provided the document-store root still exists at the time
of the call, `check_for_changes` returns true exactly when the stored mtime
snapshot and the fresh sample differ as finite maps (some mtime changed,
some file added, or some file removed), and it replaces the stored snapshot
with the fresh sample.  When the root is missing it returns false and
leaves the snapshot unchanged (see the counterexample). -/
theorem check_for_changes_detects_diffs (fs : WatchFS) (stored : List (Str × ℕ))
    (hroot : fs.rootExists = true)
    (hs : (stored.map Prod.fst).Nodup) (hc : (fs.files.map Prod.fst).Nodup) :
    ((check_for_changes fs stored).1 = true ↔
      ¬ ∀ p, mtimeLookup stored p = mtimeLookup fs.files p) ∧
    (check_for_changes fs stored).2 = fs.files := by
  have hbody : check_for_changes fs stored =
      ((fs.files.any (fun pm =>
          match mtimeLookup stored pm.1 with
          | some m => !(m == pm.2)
          | none => true) ||
        stored.any (fun pm => (mtimeLookup fs.files pm.1).isNone)),
       fs.files) := by
    unfold check_for_changes
    rw [hroot]
    rfl
  rw [hbody]
  exact ⟨snapshots_differ_iff stored fs.files hs hc, rfl⟩

def watchFSTwo : WatchFS := ⟨true, [(chars "aa", 2)]⟩

/-- Witness for the amended change-detection theorem at a concrete mtime
bump. -/
theorem check_for_changes_detects_diffs_witness :
    (check_for_changes watchFSTwo [(chars "aa", 1)]).1 = true ∧
    (check_for_changes watchFSTwo [(chars "aa", 1)]).2 = watchFSTwo.files := by
  have h := check_for_changes_detects_diffs watchFSTwo [(chars "aa", 1)] rfl
    (by decide) (by decide)
  refine ⟨h.1.mpr ?_, h.2⟩
  intro hall
  exact absurd (hall (chars "aa")) (by decide)

-- ## C8 — bounded recent-searches buffer

structure RecordOp where
  tool : Str
  details : Option TrackDetails
  now : Str

/-- Any sequence of `track_usage` calls applied to a usage-stats state. -/
def applyRecords (ops : List RecordOp) (st : UsageStats) : UsageStats :=
  ops.foldl (fun s op => track_usage op.tool op.details op.now s) st

theorem track_usage_searches_le (tool : Str) (details : Option TrackDetails)
    (now : Str) (st : UsageStats) (h : st.searches.length ≤ 100) :
    (track_usage tool details now st).searches.length ≤ 100 := by
  unfold track_usage
  rcases details with _ | ⟨dom, q⟩
  · simpa using h
  · rcases dom with _ | d <;> rcases q with _ | qq <;>
      simp [dequeAppend, List.length_drop] <;> omega

theorem applyRecords_searches_le (ops : List RecordOp) (st : UsageStats)
    (h : st.searches.length ≤ 100) :
    (applyRecords ops st).searches.length ≤ 100 := by
  induction ops generalizing st with
  | nil => simpa [applyRecords] using h
  | cons op rest ih =>
    have : applyRecords (op :: rest) st =
        applyRecords rest (track_usage op.tool op.details op.now st) := rfl
    rw [this]
    exact ih _ (track_usage_searches_le _ _ _ _ h)

/-- C8: in every state reachable from the initial stats by any sequence of
record operations the recent-searches buffer holds at most 100 entries,
and appending a search to a full buffer evicts exactly the oldest entry. -/
theorem searches_buffer_bounded :
    (∀ (ops : List RecordOp) (start : Str),
      (applyRecords ops (initUsageStats start)).searches.length ≤ 100) ∧
    (∀ (st : UsageStats) (tool : Str) (dom : Option Str) (q now : Str),
      st.searches.length = 100 →
      (track_usage tool (some ⟨dom, some q⟩) now st).searches =
        st.searches.drop 1 ++ [⟨q, now⟩]) := by
  constructor
  · intro ops start
    exact applyRecords_searches_le ops _ (by simp [initUsageStats])
  · intro st tool dom q now hfull
    have key : dequeAppend 100 st.searches ⟨q, now⟩ =
        st.searches.drop 1 ++ [⟨q, now⟩] := by
      show (st.searches ++ [(⟨q, now⟩ : SearchRecord)]).drop
          ((st.searches ++ [(⟨q, now⟩ : SearchRecord)]).length - 100) =
        st.searches.drop 1 ++ [⟨q, now⟩]
      rw [show (st.searches ++ [(⟨q, now⟩ : SearchRecord)]).length - 100 = 1 by
        simp [hfull]]
      exact List.drop_append_of_le_length (by omega)
    unfold track_usage
    rcases dom with _ | d <;> simp [key]

def statsFull : UsageStats :=
  ⟨[], [], List.replicate 100 ⟨[], []⟩, []⟩

/-- Witness for the buffer-bound theorem on a concrete full buffer. -/
theorem searches_buffer_bounded_witness :
    (applyRecords [⟨chars "search_skills", some ⟨none, some (chars "q")⟩, chars "t"⟩]
        (initUsageStats [])).searches.length ≤ 100 ∧
    (track_usage (chars "search_skills") (some ⟨none, some (chars "q")⟩) (chars "t")
        statsFull).searches =
      statsFull.searches.drop 1 ++ [⟨chars "q", chars "t"⟩] :=
  ⟨searches_buffer_bounded.1 _ _,
   searches_buffer_bounded.2 statsFull _ none _ _ (by decide)⟩

-- ## C1 — metadata search: the first-matching-rule priority

theorem skillDomainMatch_fields {ql : Str} {s : Skill} {r : MetaResult}
    (h : skillDomainMatch ql s = some r) : r.domain = s.name ∧ r.sub_skill = none := by
  unfold skillDomainMatch at h
  split at h
  · cases h; exact ⟨rfl, rfl⟩
  · split at h
    · cases h; exact ⟨rfl, rfl⟩
    · split at h
      · cases h; exact ⟨rfl, rfl⟩
      · cases h

theorem subSkillMatch_fields {ql d : Str} {sub : SubSkill} {r : MetaResult}
    (h : subSkillMatch ql d sub = some r) :
    r.domain = d ∧ r.sub_skill = some sub.name := by
  unfold subSkillMatch at h
  split at h
  · cases h; exact ⟨rfl, rfl⟩
  · split at h
    · cases h; exact ⟨rfl, rfl⟩
    · cases h

/-- Every row the scan loop appends for skill `s` carries `s`'s name as its
domain. -/
theorem mem_skill_block_domain {ql : Str} {s : Skill} {r : MetaResult}
    (h : r ∈ (skillDomainMatch ql s).toList ++
        s.sub_skills.filterMap (subSkillMatch ql s.name)) : r.domain = s.name := by
  rcases List.mem_append.mp h with hd | hsub
  · rcases hm : skillDomainMatch ql s with _ | r'
    · rw [hm] at hd; cases hd
    · rw [hm] at hd
      have : r = r' := by simpa using hd
      exact this ▸ (skillDomainMatch_fields hm).1
  · rcases List.mem_filterMap.mp hsub with ⟨sub, _, hmatch⟩
    exact (subSkillMatch_fields hmatch).1

theorem mem_collectMetaResults_domain {ql : Str} {skills : List Skill} {r : MetaResult}
    (h : r ∈ collectMetaResults ql skills) : r.domain ∈ skills.map Skill.name := by
  unfold collectMetaResults at h
  rcases List.mem_flatten.mp h with ⟨block, hblock, hr⟩
  rcases List.mem_map.mp hblock with ⟨s, hs, hdef⟩
  have : r.domain = s.name := mem_skill_block_domain (hdef ▸ hr)
  exact this ▸ List.mem_map.mpr ⟨s, hs, rfl⟩

theorem filter_collect_eq_singleton {ql : Str} {skills : List Skill} {s : Skill}
    (hnd : (skills.map Skill.name).Nodup) (hs : s ∈ skills)
    (h1 : isSubstring ql (pyLower s.name) = false)
    (h2 : isSubstring ql (pyLower s.description) = true) :
    (collectMetaResults ql skills).filter
        (fun r => r.domain == s.name && r.sub_skill.isNone) =
      [⟨s.name, none, mkRat 7 10, chars "description"⟩] := by
  induction skills with
  | nil => cases hs
  | cons t rest ih =>
    rw [List.map_cons, List.nodup_cons] at hnd
    have hsplit : collectMetaResults ql (t :: rest) =
        ((skillDomainMatch ql t).toList ++
          t.sub_skills.filterMap (subSkillMatch ql t.name)) ++
        collectMetaResults ql rest := by
      unfold collectMetaResults
      rw [List.map_cons, List.flatten_cons]
    rw [hsplit, List.filter_append]
    rcases List.mem_cons.mp hs with hst | hrest
    · subst hst
      have hmatch : skillDomainMatch ql s =
          some ⟨s.name, none, mkRat 7 10, chars "description"⟩ := by
        unfold skillDomainMatch
        rw [h1, h2]
        rfl
      have hblock : ((skillDomainMatch ql s).toList ++
          s.sub_skills.filterMap (subSkillMatch ql s.name)).filter
            (fun r => r.domain == s.name && r.sub_skill.isNone) =
          [⟨s.name, none, mkRat 7 10, chars "description"⟩] := by
        rw [List.filter_append, hmatch]
        have hsubnil : (s.sub_skills.filterMap (subSkillMatch ql s.name)).filter
            (fun r => r.domain == s.name && r.sub_skill.isNone) = [] := by
          rw [List.filter_eq_nil_iff]
          intro r hr
          rcases List.mem_filterMap.mp hr with ⟨sub, _, hm⟩
          have := (subSkillMatch_fields hm).2
          simp [this]
        rw [hsubnil]
        simp [Option.toList, List.filter]
      have hrestnil : (collectMetaResults ql rest).filter
          (fun r => r.domain == s.name && r.sub_skill.isNone) = [] := by
        rw [List.filter_eq_nil_iff]
        intro r hr
        have hdom := mem_collectMetaResults_domain hr
        intro hp
        have : r.domain = s.name := by
          have := (Bool.and_eq_true _ _).mp hp
          simpa using this.1
        exact hnd.1 (this ▸ hdom)
      rw [hblock, hrestnil, List.append_nil]
    · have htne : ¬ (t.name = s.name) := by
        intro he
        exact hnd.1 (he ▸ List.mem_map.mpr ⟨s, hrest, rfl⟩)
      have hblocknil : ((skillDomainMatch ql t).toList ++
          t.sub_skills.filterMap (subSkillMatch ql t.name)).filter
            (fun r => r.domain == s.name && r.sub_skill.isNone) = [] := by
        rw [List.filter_eq_nil_iff]
        intro r hr hp
        have hd : r.domain = t.name := mem_skill_block_domain hr
        have : r.domain = s.name := by
          have := (Bool.and_eq_true _ _).mp hp
          simpa using this.1
        exact htne (hd ▸ this)
      rw [hblocknil, ih hnd.2 hrest]
      rfl

/-- C1 (amended): for every valid query and every domain record whose name
does not contain the query but whose description and at least one tag both
contain it, the metadata search produces exactly one domain-level entry for
that domain, and that entry has match-kind "description" with score 0.7 —
the source's elif chain checks name, then description, then tags, so the
description rule (not the tags rule) wins.  Hypotheses pin down the usual
well-formedness of the store (unique domain names) and that the result list
is not cut by the limit. -/
theorem search_skills_description_rule_wins
    (skills : List Skill) (s : Skill) (query : Str) (limit : ℕ)
    (now : Str) (st : UsageStats)
    (hq : (pyStrip query).isEmpty = false) (hlen : query.length ≤ 1000)
    (hnd : (skills.map Skill.name).Nodup) (hs : s ∈ skills)
    (h1 : isSubstring (pyLower query) (pyLower s.name) = false)
    (h2 : isSubstring (pyLower query) (pyLower s.description) = true)
    (h3 : s.tags.any (fun t => isSubstring (pyLower query) (pyLower t)) = true)
    (hlim1 : 1 ≤ limit) (hlim2 : limit ≤ 100)
    (hfit : (collectMetaResults (pyLower query) skills).length ≤ limit) :
    ((search_skills skills query limit now st).2.results.filter
        (fun r => r.domain == s.name && r.sub_skill.isNone)) =
      [⟨s.name, none, mkRat 7 10, chars "description"⟩] := by
  have hempty : query.isEmpty = false := by
    rcases query with _ | ⟨c, cs⟩
    · exact absurd hq (by simp [pyStrip])
    · rfl
  have hclamp : clampLimit limit = limit := by
    unfold clampLimit
    omega
  have hout : (search_skills skills query limit now st).2.results =
      (sortByScoreDesc (fun r => r.score)
        (collectMetaResults (pyLower query) skills)).take (clampLimit limit) := by
    unfold search_skills
    rw [if_neg (by simp [hempty, hq]), if_neg (by omega)]
  rw [hout, hclamp,
    List.take_of_length_le (by rw [sortByScoreDesc_length]; exact hfit)]
  have hperm := (sortByScoreDesc_perm (fun r => r.score)
      (collectMetaResults (pyLower query) skills)).filter
    (fun r => r.domain == s.name && r.sub_skill.isNone)
  rw [filter_collect_eq_singleton hnd hs h1 h2] at hperm
  exact List.perm_singleton.mp hperm

/-- Witness for the amended first-matching-rule theorem at the concrete
"zod" scenario. -/
theorem search_skills_description_rule_wins_witness :
    ((search_skills [skillAlpha] (chars "zod") 5 (chars "t")
        (initUsageStats [])).2.results.filter
        (fun r => r.domain == skillAlpha.name && r.sub_skill.isNone)) =
      [⟨skillAlpha.name, none, mkRat 7 10, chars "description"⟩] :=
  search_skills_description_rule_wins [skillAlpha] skillAlpha (chars "zod") 5
    (chars "t") (initUsageStats []) (by decide) (by decide) (by decide)
    (by decide) (by decide) (by decide) (by decide) (by decide) (by decide)
    (by decide)

-- ## C3 — content search phrase scoring

/-- C3 (amended): for every valid query whose full lower-cased text occurs
in an entry's content, the score assigned to the entry is exactly 1.2 when
the full query fits as a substring inside the first 500 characters of the
content, and exactly 1.0 otherwise; a match that merely starts before
position 500 but straddles the boundary gets 1.0 (see the counterexample). -/
theorem content_phrase_score_boost (query content : Str)
    (_hq : (pyStrip query).isEmpty = false) (_hlen : query.length ≤ 1000)
    (_hwords : (pySplit (pyLower query)).length ≤ 100)
    (h : isSubstring (pyLower query) content = true) :
    round3 (contentScore (pyLower query) (pySplit (pyLower query)) content) =
      if isSubstring (pyLower query) (content.take 500) then mkRat 12 10
      else mkRat 1 1 := by
  unfold contentScore
  rw [if_pos h]
  split
  · decide
  · decide

/-- Witness for the phrase-scoring theorem at a concrete boosted match. -/
theorem content_phrase_score_boost_witness :
    round3 (contentScore (pyLower (chars "ab")) (pySplit (pyLower (chars "ab")))
        (chars "zab")) =
      if isSubstring (pyLower (chars "ab")) ((chars "zab").take 500) then mkRat 12 10
      else mkRat 1 1 :=
  content_phrase_score_boost (chars "ab") (chars "zab") (by decide) (by decide)
    (by decide) (by decide)

-- ## C10 — metadata search is case-insensitive

theorem pyIsSpace_pyLowerChar (c : Char) : pyIsSpace (pyLowerChar c) = pyIsSpace c := by
  unfold pyLowerChar
  split <;> rfl

theorem all_pyIsSpace_pyLower (s : Str) : (pyLower s).all pyIsSpace = s.all pyIsSpace := by
  unfold pyLower
  rw [List.all_map]
  congr 1
  funext c
  exact pyIsSpace_pyLowerChar c

theorem pyStrip_isEmpty_all (s : Str) : (pyStrip s).isEmpty = s.all pyIsSpace := by
  rw [Bool.eq_iff_iff, List.isEmpty_iff, List.all_eq_true]
  unfold pyStrip
  rw [List.reverse_eq_nil_iff, List.dropWhile_eq_nil_iff]
  constructor
  · intro h x hx
    rcases List.mem_append.mp
        (by rw [List.takeWhile_append_dropWhile]; exact hx :
          x ∈ s.takeWhile pyIsSpace ++ s.dropWhile pyIsSpace) with htw | hdw
    · exact List.mem_takeWhile_imp htw
    · exact h x (List.mem_reverse.mpr hdw)
  · intro h x hx
    exact h x ((s.dropWhile_sublist pyIsSpace).mem (List.mem_reverse.mp hx))

/-- C10: metadata search is case-insensitive on both sides — two queries
with the same lower-casing produce identical result lists and identical
error outcomes, for every index, limit, timestamp, and prior stats state
(only the echoed raw `query` field can differ). -/
theorem search_skills_case_insensitive (skills : List Skill) (q q' : Str)
    (limit : ℕ) (now now' : Str) (st st' : UsageStats)
    (h : pyLower q = pyLower q') :
    (search_skills skills q limit now st).2.results =
      (search_skills skills q' limit now' st').2.results ∧
    (search_skills skills q limit now st).2.error =
      (search_skills skills q' limit now' st').2.error := by
  have hlen : q.length = q'.length := by
    have hc := congrArg List.length h
    simpa [pyLower] using hc
  have hemp : q.isEmpty = q'.isEmpty := by
    rcases q with _ | _ <;> rcases q' with _ | _ <;> simp_all
  have hstrip : (pyStrip q).isEmpty = (pyStrip q').isEmpty := by
    rw [pyStrip_isEmpty_all, pyStrip_isEmpty_all,
      ← all_pyIsSpace_pyLower q, ← all_pyIsSpace_pyLower q', h]
  unfold search_skills
  by_cases hc1 : (q'.isEmpty || (pyStrip q').isEmpty) = true
  · rw [if_pos (by rw [hemp, hstrip]; exact hc1), if_pos hc1]
    exact ⟨rfl, rfl⟩
  · rw [if_neg (by rw [hemp, hstrip]; exact hc1), if_neg hc1]
    by_cases hc2 : 1000 < q'.length
    · rw [if_pos (by rw [hlen]; exact hc2), if_pos hc2]
      exact ⟨rfl, rfl⟩
    · rw [if_neg (by rw [hlen]; exact hc2), if_neg hc2, h]
      exact ⟨rfl, rfl⟩

/-- Witness for case-insensitivity at a concrete mixed-case query. -/
theorem search_skills_case_insensitive_witness :
    (search_skills [skillAlpha] (chars "ZoD") 5 (chars "t")
        (initUsageStats [])).2.results =
      (search_skills [skillAlpha] (chars "zod") 5 (chars "t")
        (initUsageStats [])).2.results ∧
    (search_skills [skillAlpha] (chars "ZoD") 5 (chars "t")
        (initUsageStats [])).2.error =
      (search_skills [skillAlpha] (chars "zod") 5 (chars "t")
        (initUsageStats [])).2.error :=
  search_skills_case_insensitive [skillAlpha] (chars "ZoD") (chars "zod") 5
    (chars "t") (chars "t") (initUsageStats []) (initUsageStats []) rfl

-- ## C7 — batch get over record-shaped requests

theorem batch_loop_obj_requests (fs : SkillsFS) (skills : List Skill) (now : Str)
    (kvss : List (List (Str × Json))) (st : UsageStats) :
    ∃ stF, batch_loop fs skills now (kvss.map Json.obj) st =
      (stF, Except.ok (kvss.map (batch_item_result fs skills))) := by
  induction kvss generalizing st with
  | nil => exact ⟨st, rfl⟩
  | cons kvs rest ih =>
    obtain ⟨stF, hF⟩ := ih (batch_item_track (Json.obj kvs) now st)
    refine ⟨stF, ?_⟩
    show (match batch_item_res fs skills (Json.obj kvs) with
      | Except.error e => (st, Except.error e)
      | Except.ok res =>
        match batch_loop fs skills now (rest.map Json.obj)
            (batch_item_track (Json.obj kvs) now st) with
        | (st', Except.ok ress) => (st', Except.ok (res :: ress))
        | (st', Except.error e) => (st', Except.error e)) = _
    rw [show batch_item_res fs skills (Json.obj kvs) =
      Except.ok (batch_item_result fs skills kvs) from rfl, hF]
    rfl

/-- C7 (amended): for every request list of record-shaped items,
`get_skills_batch` never raises and returns exactly one result per item, in
input order, each computed from that item alone (so a failing item — unknown
domain, unsafe name, missing file — yields its structured error in place
without affecting the others).  A non-record item instead raises
`AttributeError` (see the counterexample). -/
theorem get_skills_batch_record_requests (fs : SkillsFS) (skills : List Skill)
    (kvss : List (List (Str × Json))) (now : Str) (st : UsageStats) :
    ∃ stF, get_skills_batch fs skills (kvss.map Json.obj) now st =
      (stF, Except.ok ⟨kvss.map (batch_item_result fs skills)⟩) := by
  obtain ⟨stF, hF⟩ := batch_loop_obj_requests fs skills now kvss
    (track_usage (chars "get_skills_batch") none now st)
  refine ⟨stF, ?_⟩
  show (match batch_loop fs skills now (kvss.map Json.obj)
      (track_usage (chars "get_skills_batch") none now st) with
    | (st', Except.ok ress) => (st', Except.ok (⟨ress⟩ : BatchOut))
    | (st', Except.error e) => (st', Except.error e)) = _
  rw [hF]

-- ## C5 — which facade calls touch the usage counters

theorem countOf_eq_zero {m : List (Str × ℕ)} {k : Str}
    (h : m.any (fun kv => kv.1 == k) = false) : countOf m k = 0 := by
  unfold countOf
  rw [List.find?_eq_none.mpr]
  · rfl
  · intro kv hkv
    simpa using (List.any_eq_false.mp h) kv hkv

theorem countOf_append_single_self {m : List (Str × ℕ)} {k : Str}
    (h : m.any (fun kv => kv.1 == k) = false) : countOf (m ++ [(k, 1)]) k = 1 := by
  unfold countOf
  rw [List.find?_append, List.find?_eq_none.mpr]
  · simp [List.find?]
  · intro kv hkv
    simpa using (List.any_eq_false.mp h) kv hkv

theorem countOf_map_bump (m : List (Str × ℕ)) (k : Str) :
    countOf (m.map (fun kv => if kv.1 == k then (kv.1, kv.2 + 1) else kv)) k =
      if m.any (fun kv => kv.1 == k) then countOf m k + 1 else 0 := by
  induction m with
  | nil => simp [countOf]
  | cons kv rest ih =>
    rcases hkv : (kv.1 == k) with _ | _
    · rw [List.map_cons, if_neg (by simp [hkv])]
      unfold countOf
      rw [List.find?_cons_of_neg _ (by simp [hkv]),
        List.find?_cons_of_neg _ (by simp [hkv])]
      have := ih
      unfold countOf at this
      rw [this, List.any_cons, hkv, Bool.false_or]
    · rw [List.map_cons, if_pos (by simp [hkv])]
      unfold countOf
      rw [List.find?_cons_of_pos _ (by simp [hkv]),
        List.find?_cons_of_pos _ (by simp [hkv]),
        if_pos (by simp [List.any_cons, hkv])]
      rfl

theorem countOf_bumpCounter_self (m : List (Str × ℕ)) (k : Str) :
    countOf (bumpCounter m k) k = countOf m k + 1 := by
  unfold bumpCounter
  rcases h : m.any (fun kv => kv.1 == k) with _ | _
  · rw [if_neg (by simp [h]), countOf_append_single_self h, countOf_eq_zero h]
  · rw [if_pos (by simp [h]), countOf_map_bump, if_pos (by simp [h])]

theorem countOf_bumpCounter_other (m : List (Str × ℕ)) (k' k : Str)
    (hne : ¬ (k' = k)) : countOf (bumpCounter m k') k = countOf m k := by
  unfold bumpCounter
  rcases h : m.any (fun kv => kv.1 == k') with _ | _
  · rw [if_neg (by simp [h])]
    unfold countOf
    rw [List.find?_append]
    have hk : (k' == k) = false := by simpa using hne
    simp [List.find?, hk]
  · rw [if_pos (by simp [h])]
    clear h
    induction m with
    | nil => rfl
    | cons kv rest ih =>
      rw [List.map_cons]
      rcases hkk : (kv.1 == k) with _ | _
      · have hpred : ((if kv.1 == k' then (kv.1, kv.2 + 1) else kv).1 == k) = false := by
          split <;> simpa using hkk
        unfold countOf at ih ⊢
        simp only [List.find?, hpred, hkk]
        exact ih
      · have hkv' : (kv.1 == k') = false := by
          have hk : kv.1 = k := by simpa using hkk
          simp [hk]
          intro hh
          exact hne hh.symm
        rw [if_neg (by simp [hkv'])]
        unfold countOf
        simp only [List.find?, hkk]

theorem track_usage_tool_calls (tool : Str) (details : Option TrackDetails)
    (now : Str) (st : UsageStats) :
    (track_usage tool details now st).tool_calls = bumpCounter st.tool_calls tool := by
  unfold track_usage
  rcases details with _ | ⟨dom, q⟩
  · rfl
  · rcases dom with _ | d <;> rcases q with _ | qq <;> rfl

theorem batch_item_track_tool_calls_other (req : Json) (now : Str)
    (st : UsageStats) (k : Str)
    (h1 : ¬ (chars "get_skill" = k)) (h2 : ¬ (chars "get_sub_skill" = k)) :
    countOf (batch_item_track req now st).tool_calls k = countOf st.tool_calls k := by
  rcases req with _ | _ | _ | _ | _ | kvs
  case obj =>
    show countOf (match (((kvs.find? (fun kv : Str × Json => kv.1 == chars "domain")).map
        (fun kv : Str × Json => kv.2)).getD Json.null) with
      | Json.str d =>
        if is_safe_skill_name d then
          track_usage
            (if jTruthy (((kvs.find? (fun kv : Str × Json => kv.1 == chars "sub_skill")).map
                (fun kv : Str × Json => kv.2)).getD Json.null)
             then chars "get_sub_skill" else chars "get_skill")
            (some ⟨some d, none⟩) now st
        else st
      | _ => st).tool_calls k = countOf st.tool_calls k
    split
    · rename_i d heq
      by_cases hsafe : is_safe_skill_name d = true
      · rw [if_pos hsafe, track_usage_tool_calls]
        by_cases hsub : jTruthy (((kvs.find? (fun kv : Str × Json => kv.1 == chars "sub_skill")).map
            (fun kv : Str × Json => kv.2)).getD Json.null) = true
        · rw [if_pos hsub]
          exact countOf_bumpCounter_other _ _ _ h2
        · rw [if_neg hsub]
          exact countOf_bumpCounter_other _ _ _ h1
      · rw [if_neg hsafe]
    · rfl
  all_goals rfl

theorem batch_loop_tool_calls_other (fs : SkillsFS) (skills : List Skill)
    (now : Str) (reqs : List Json) (st : UsageStats) (k : Str)
    (h1 : ¬ (chars "get_skill" = k)) (h2 : ¬ (chars "get_sub_skill" = k)) :
    countOf (batch_loop fs skills now reqs st).1.tool_calls k =
      countOf st.tool_calls k := by
  induction reqs generalizing st with
  | nil => rfl
  | cons r rest ih =>
    unfold batch_loop
    rcases hres : batch_item_res fs skills r with e | res
    · rfl
    · rcases hloop : batch_loop fs skills now rest (batch_item_track r now st)
        with ⟨st2, out⟩
      show countOf (match batch_loop fs skills now rest (batch_item_track r now st) with
        | (st', Except.ok ress) => (st', Except.ok (res :: ress))
        | (st', Except.error e) => (st', Except.error e)).1.tool_calls k =
          countOf st.tool_calls k
      rw [hloop]
      have hnext := ih (batch_item_track r now st)
      rw [batch_item_track_tool_calls_other r now st k h1 h2, hloop] at hnext
      rcases out with e2 | ress <;> simpa using hnext

/-- C5 (amended): `list`, `getBatch`, and completed `reload` calls increment
their operation counter on every call; `get`, `getSub`, `searchMetadata` and
`searchContent` increment exactly when their input validation passes (a call
rejected for an unsafe name or an empty/oversized/overlong query leaves the
stats untouched); `stats` and `validateAll` never increment any counter. -/
theorem facade_tracking_behaviour :
    (∀ (skills : List Skill) (now : Str) (st : UsageStats),
      countOf (list_skills skills now st).1.tool_calls (chars "list_skills") =
        countOf st.tool_calls (chars "list_skills") + 1) ∧
    (∀ (fs : SkillsFS) (skills : List Skill) (name now : Str) (st : UsageStats),
      (is_safe_skill_name name = true →
        countOf (get_skill fs skills name now st).1.tool_calls (chars "get_skill") =
          countOf st.tool_calls (chars "get_skill") + 1) ∧
      (is_safe_skill_name name = false → (get_skill fs skills name now st).1 = st)) ∧
    (∀ (fs : SkillsFS) (skills : List Skill) (domain subName now : Str) (st : UsageStats),
      (is_safe_skill_name domain = true →
        countOf (get_sub_skill fs skills domain subName now st).1.tool_calls
            (chars "get_sub_skill") =
          countOf st.tool_calls (chars "get_sub_skill") + 1) ∧
      (is_safe_skill_name domain = false →
        (get_sub_skill fs skills domain subName now st).1 = st)) ∧
    (∀ (fs : SkillsFS) (skills : List Skill) (requests : List Json) (now : Str)
        (st : UsageStats),
      countOf (get_skills_batch fs skills requests now st).1.tool_calls
          (chars "get_skills_batch") =
        countOf st.tool_calls (chars "get_skills_batch") + 1) ∧
    (∀ (skills : List Skill) (query : Str) (limit : ℕ) (now : Str) (st : UsageStats),
      ((query.isEmpty || (pyStrip query).isEmpty) = true →
        (search_skills skills query limit now st).1 = st) ∧
      (1000 < query.length → (search_skills skills query limit now st).1 = st) ∧
      ((pyStrip query).isEmpty = false → query.length ≤ 1000 →
        countOf (search_skills skills query limit now st).1.tool_calls
            (chars "search_skills") =
          countOf st.tool_calls (chars "search_skills") + 1)) ∧
    (∀ (cindex : List ContentEntry) (query : Str) (limit : ℕ) (now : Str)
        (st : UsageStats),
      ((query.isEmpty || (pyStrip query).isEmpty) = true →
        (search_content cindex query limit now st).1 = st) ∧
      (1000 < query.length → (search_content cindex query limit now st).1 = st) ∧
      ((pyStrip query).isEmpty = false → query.length ≤ 1000 →
        (pySplit (pyLower query)).length ≤ 100 →
        countOf (search_content cindex query limit now st).1.tool_calls
            (chars "search_content") =
          countOf st.tool_calls (chars "search_content") + 1)) ∧
    (∀ (idx : MetaIndex) (contentCount : ℕ) (now : Str) (st : UsageStats),
      countOf (reload_index (Except.ok idx) contentCount now st).1.tool_calls
          (chars "reload_index") =
        countOf st.tool_calls (chars "reload_index") + 1) ∧
    (∀ (e : PyErr) (contentCount : ℕ) (now : Str) (st : UsageStats),
      (reload_index (Except.error e) contentCount now st).1 = st) ∧
    (∀ (skills : List Skill) (contentCount : ℕ) (st : UsageStats),
      (get_stats skills contentCount st).1 = st) ∧
    (∀ (fs : SkillsFS) (st : UsageStats), (validate_skills fs st).1 = st) := by
  refine ⟨?_, ?_, ?_, ?_, ?_, ?_, ?_, ?_, ?_, ?_⟩
  · intro skills now st
    show countOf (track_usage (chars "list_skills") none now st).tool_calls _ = _
    rw [track_usage_tool_calls]
    exact countOf_bumpCounter_self _ _
  · intro fs skills name now st
    constructor
    · intro hsafe
      unfold get_skill
      rw [if_pos hsafe, track_usage_tool_calls]
      exact countOf_bumpCounter_self _ _
    · intro hbad
      unfold get_skill
      rw [if_neg (by simp [hbad])]
  · intro fs skills domain subName now st
    constructor
    · intro hsafe
      unfold get_sub_skill
      rw [if_pos hsafe, track_usage_tool_calls]
      exact countOf_bumpCounter_self _ _
    · intro hbad
      unfold get_sub_skill
      rw [if_neg (by simp [hbad])]
  · intro fs skills requests now st
    rcases hloop : batch_loop fs skills now requests
        (track_usage (chars "get_skills_batch") none now st) with ⟨st2, out⟩
    have hpres := batch_loop_tool_calls_other fs skills now requests
      (track_usage (chars "get_skills_batch") none now st)
      (chars "get_skills_batch") (by decide) (by decide)
    rw [hloop] at hpres
    have hbump : countOf (track_usage (chars "get_skills_batch") none now st).tool_calls
        (chars "get_skills_batch") = countOf st.tool_calls (chars "get_skills_batch") + 1 := by
      rw [track_usage_tool_calls]
      exact countOf_bumpCounter_self _ _
    show countOf (match batch_loop fs skills now requests
        (track_usage (chars "get_skills_batch") none now st) with
      | (st', Except.ok ress) => (st', Except.ok (⟨ress⟩ : BatchOut))
      | (st', Except.error e) => (st', Except.error e)).1.tool_calls
        (chars "get_skills_batch") = countOf st.tool_calls (chars "get_skills_batch") + 1
    rw [hloop]
    rcases out with e | ress <;> simpa [hbump] using hpres
  · intro skills query limit now st
    refine ⟨?_, ?_, ?_⟩
    · intro hrej
      unfold search_skills
      rw [if_pos hrej]
    · intro hlong
      unfold search_skills
      by_cases hrej : (query.isEmpty || (pyStrip query).isEmpty) = true
      · rw [if_pos hrej]
      · rw [if_neg hrej, if_pos hlong]
    · intro hne hlen
      have hemp : query.isEmpty = false := by
        rcases query with _ | _
        · exact absurd hne (by simp [pyStrip])
        · rfl
      unfold search_skills
      rw [if_neg (by simp [hemp, hne]), if_neg (by omega)]
      show countOf (track_usage (chars "search_skills") _ now st).tool_calls _ = _
      rw [track_usage_tool_calls]
      exact countOf_bumpCounter_self _ _
  · intro cindex query limit now st
    refine ⟨?_, ?_, ?_⟩
    · intro hrej
      unfold search_content
      rw [if_pos hrej]
    · intro hlong
      unfold search_content
      by_cases hrej : (query.isEmpty || (pyStrip query).isEmpty) = true
      · rw [if_pos hrej]
      · rw [if_neg hrej, if_pos hlong]
    · intro hne hlen hwords
      have hemp : query.isEmpty = false := by
        rcases query with _ | _
        · exact absurd hne (by simp [pyStrip])
        · rfl
      unfold search_content
      rw [if_neg (by simp [hemp, hne]), if_neg (by omega), if_neg (by omega)]
      show countOf (track_usage (chars "search_content") _ now st).tool_calls _ = _
      rw [track_usage_tool_calls]
      exact countOf_bumpCounter_self _ _
  · intro idx contentCount now st
    show countOf (track_usage (chars "reload_index") none now st).tool_calls _ = _
    rw [track_usage_tool_calls]
    exact countOf_bumpCounter_self _ _
  · intro e contentCount now st
    rfl
  · intro skills contentCount st
    rfl
  · intro fs st
    rfl

/-- Witness for the tracking theorem: a validated search increments its
counter; a search rejected for a whitespace-only query does not. -/
theorem facade_tracking_behaviour_witness :
    countOf (search_skills [] (chars "q") 5 (chars "t")
        (initUsageStats [])).1.tool_calls (chars "search_skills") =
      countOf (initUsageStats []).tool_calls (chars "search_skills") + 1 ∧
    (search_skills [] (chars " ") 5 (chars "t") (initUsageStats [])).1 =
      initUsageStats [] :=
  ⟨(facade_tracking_behaviour.2.2.2.2.1 [] (chars "q") 5 (chars "t")
      (initUsageStats [])).2.2 (by decide) (by decide),
   (facade_tracking_behaviour.2.2.2.2.1 [] (chars " ") 5 (chars "t")
      (initUsageStats [])).1 (by decide)⟩

end SkillsServer
